import Mathlib

/-!
Verification development for the resolv 2D collision library.

The Go sources embedded here are `circle.go` (the `Circle` shape and its
collision predicates) and `space.go` (the `Space` composite shape).  Shapes
carry integer (`int32`) coordinates; we model them with `ℤ`, and the
floating-point geometric computations of the source with exact reals `ℝ`.
Collision predicates are therefore `Prop`-valued: a comparison such as
`Distance(...) <= radius` becomes a proposition about real numbers.

Go's early-`return` style translates as follows: a pure function of the form
`if A { return true }; if B { return true }; return false` denotes `A ∨ B`,
and `if A { if B { return true } }; return false` denotes `A ∧ B`.

Division in the source is float64 division; in the `ℝ` model `x / 0 = 0`
(Lean's convention), whereas Go produces `NaN` for `0.0/0.0`.  The one place
this matters (the Heron altitude of a zero-length segment) is analysed
explicitly at the corresponding claim.
-/

namespace Resolv

/-- Structure `Circle` from circle.go: `BasicShape` position fields `X`, `Y` plus
`Radius`.  The `BasicShape` tag list and user-data payload are omitted: no
collision or movement code consulted here reads them. -/
structure Circle where
  X : ℤ
  Y : ℤ
  Radius : ℤ
  deriving DecidableEq

/-- Structure `Rectangle`: position `X`, `Y` (top-left corner) plus width `W` and
height `H`.  Only the fields read by circle.go's Rectangle case are kept. -/
structure Rectangle where
  X : ℤ
  Y : ℤ
  W : ℤ
  H : ℤ
  deriving DecidableEq

/-- Structure `Line`: a finite segment from `(X, Y)` to `(X2, Y2)`. -/
structure Line where
  X : ℤ
  Y : ℤ
  X2 : ℤ
  Y2 : ℤ
  deriving DecidableEq

/-- Modelled from the spec: the geometry primitive `Distance` (its source
file is not under src/; circle.go calls it).  Per the spec's data model,
positions are integer coordinates and `Distance` is the scalar (Euclidean)
distance between two points, here as an exact real number. -/
noncomputable def Distance (x y x2 y2 : ℤ) : ℝ :=
  Real.sqrt (((x - x2) ^ 2 + (y - y2) ^ 2 : ℤ) : ℝ)

/-- Modelled from the spec: `Line.GetLength` (line.go is not under src/;
circle.go calls it).  Per the spec, a `Line` "defines a finite segment of
nonnegative length", so `GetLength` is the scalar distance between the two
endpoints. -/
noncomputable def Line.GetLength (l : Line) : ℝ :=
  Distance l.X l.Y l.X2 l.Y2

/-- The `Shape` interface as a closed variant type.  `circle`, `rectangle`,
`line` and `space` are the repository's implementors; `unknown` stands for
any foreign implementation of the interface (the Go interface is open), as
needed to express the unrecognized-pairing branch of the type switch. -/
inductive Shape where
  | circle (c : Circle)
  | rectangle (r : Rectangle)
  | line (l : Line)
  | space (members : List Shape)
  | unknown (id : ℕ)

open Classical in
/-- Function `Circle.isCollidingWithLine` from circle.go (lines 83-116): endpoint
distance checks, then the Heron-formula altitude `h`, then the
law-of-cosines comparison of `BA` against `newBA`.  The two `return true`
sites become the two disjuncts; the final `return false` is the falsity of
both.  `primaryLine` is the `if AC < CB` choice from the source. -/
noncomputable def Circle.isCollidingWithLine (c : Circle) (l : Line) : Prop :=
  let AC : ℝ := Distance c.X c.Y l.X l.Y
  let CB : ℝ := Distance c.X c.Y l.X2 l.Y2
  let BA : ℝ := l.GetLength
  (AC ≤ (c.Radius : ℝ) ∨ CB ≤ (c.Radius : ℝ)) ∨
    (let p := (AC + CB + BA) / 2
     let h := 2 * Real.sqrt (p * (p - AC) * (p - CB) * (p - BA)) / BA
     h ≤ (c.Radius : ℝ) ∧
       (let cosC := (AC * AC + CB * CB - BA * BA) / (2 * AC * CB)
        let primaryLine := if AC < CB then CB else AC
        let newBA := Real.sqrt (primaryLine * primaryLine +
          ((c.Radius : ℝ) * (c.Radius : ℝ)) -
          2 * primaryLine * (c.Radius : ℝ) * cosC)
        BA ≥ newBA))

/-- The `closestX` computation of circle.go's Rectangle case: start from the
circle's center and clamp into the rectangle's X extent. -/
def Circle.closestX (c : Circle) (b : Rectangle) : ℤ :=
  if c.X < b.X then b.X else if c.X > b.X + b.W then b.X + b.W else c.X

/-- The `closestY` computation of circle.go's Rectangle case. -/
def Circle.closestY (c : Circle) (b : Rectangle) : ℤ :=
  if c.Y < b.Y then b.Y else if c.Y > b.Y + b.H then b.Y + b.H else c.Y

mutual

/-- Dispatch of `IsColliding`.  The `circle` receiver cases are circle.go lines
24-60 (circle-circle distance test, rectangle clamp test,
`isCollidingWithLine`, delegation to `Space.IsColliding`, and the warning
fall-through returning false).  The `space` receiver is space.go's
`Space.IsColliding`.  The `rectangle` and `line` receiver cases are modelled
from the spec ("symmetric/derived cases for rectangle and line", decided by
dispatch to the other shape's implementation when available; pairings with
no listed rule take the warning path and return false): rectangle-circle and
line-circle delegate to the circle tests, rectangle-rectangle is the AABB
interval-overlap test with touching counting as colliding, and
rectangle-line / line-line / line-rectangle have no geometric rule and are
false.  An `unknown` receiver is foreign code; it is modelled as never
colliding and no theorem relies on it. -/
noncomputable def IsColliding : Shape → Shape → Prop
  | .circle c, .circle b =>
      Distance c.X c.Y b.X b.Y ≤ ((c.Radius + b.Radius : ℤ) : ℝ)
  | .circle c, .rectangle b =>
      Distance c.X c.Y (c.closestX b) (c.closestY b) ≤ (c.Radius : ℝ)
  | .circle c, .line b => c.isCollidingWithLine b
  | .circle c, .space s => Space.IsColliding s (.circle c)
  | .circle _, .unknown _ => False
  | .rectangle r, .circle c =>
      Distance c.X c.Y (c.closestX r) (c.closestY r) ≤ (c.Radius : ℝ)
  | .rectangle a, .rectangle b =>
      a.X ≤ b.X + b.W ∧ b.X ≤ a.X + a.W ∧ a.Y ≤ b.Y + b.H ∧ b.Y ≤ a.Y + a.H
  | .rectangle _, .line _ => False
  | .rectangle r, .space s => Space.IsColliding s (.rectangle r)
  | .rectangle _, .unknown _ => False
  | .line l, .circle c => c.isCollidingWithLine l
  | .line _, .rectangle _ => False
  | .line _, .line _ => False
  | .line l, .space s => Space.IsColliding s (.line l)
  | .line _, .unknown _ => False
  | .space s, other => Space.IsColliding s other
  | .unknown _, _ => False
termination_by A B => sizeOf A + sizeOf B
decreasing_by all_goals simp_wf <;> omega

/-- Function `Space.IsColliding` from space.go (lines 56-72): scan the members,
skipping any member identical to the queried shape, and report whether the
queried shape collides with some remaining member.  Go compares interface
references; structurally unequal values are necessarily distinct objects. -/
noncomputable def Space.IsColliding : List Shape → Shape → Prop
  | [], _ => False
  | m :: rest, shape =>
      (m ≠ shape ∧ IsColliding shape m) ∨ Space.IsColliding rest shape
termination_by l shape => sizeOf l + sizeOf shape
decreasing_by all_goals simp_wf <;> omega

end

/-- Function `Circle.WouldBeColliding` from circle.go (lines 64-71), with the
mutation sequence made explicit by state passing: add the delta to the
position, evaluate `IsColliding`, subtract the delta again.  The returned
pair is (the boolean result, the circle as left behind by the call). -/
noncomputable def Circle.WouldBeColliding (c : Circle) (other : Shape)
    (dx dy : ℤ) : Prop × Circle :=
  let moved : Circle := { c with X := c.X + dx, Y := c.Y + dy }
  let isColliding := IsColliding (.circle moved) other
  let restored : Circle := { moved with X := moved.X - dx, Y := moved.Y - dy }
  (isColliding, restored)

mutual

/-- Dispatch of `WouldBeColliding`.  The `circle` receiver is circle.go's
method (via `Circle.WouldBeColliding`).  The `space` receiver is space.go's
`Space.WouldBeColliding`.  The `rectangle` and `line` receiver cases are
modelled from the spec (4.2: temporarily offset self's position by the
delta, evaluate the predicate matrix, restore): their net value is the
collision test of the translated shape.  `unknown` is foreign code, modelled
as never colliding; no theorem relies on it. -/
noncomputable def Shape.WouldBeColliding : Shape → Shape → ℤ → ℤ → Prop
  | .circle c, other, dx, dy => (Circle.WouldBeColliding c other dx dy).1
  | .rectangle r, other, dx, dy =>
      IsColliding (.rectangle { r with X := r.X + dx, Y := r.Y + dy }) other
  | .line l, other, dx, dy =>
      IsColliding
        (.line { l with X := l.X + dx, Y := l.Y + dy, X2 := l.X2 + dx, Y2 := l.Y2 + dy })
        other
  | .space s, other, dx, dy => Space.WouldBeColliding s other dx dy
  | .unknown _, _, _, _ => False
termination_by A _ _ _ => sizeOf A
decreasing_by all_goals simp_wf

/-- Function `Space.WouldBeColliding` from space.go (lines 173-189): scan the
members in order; reaching a member identical to `other` returns false
immediately, a member whose swept test against `other` succeeds returns
true, and an exhausted loop returns false. -/
noncomputable def Space.WouldBeColliding : List Shape → Shape → ℤ → ℤ → Prop
  | [], _, _, _ => False
  | m :: rest, other, dx, dy =>
      m ≠ other ∧
        (Shape.WouldBeColliding m other dx dy ∨
          Space.WouldBeColliding rest other dx dy)
termination_by l _ _ _ => sizeOf l
decreasing_by all_goals simp_wf <;> omega

end

/-- The observability side channel of circle.go's `IsColliding`: `true`
exactly on the type-switch fall-through, where the source prints the
"isn't a valid shape for collision testing" warning before returning
false. -/
def Circle.collisionWarning (_c : Circle) : Shape → Bool
  | .circle _ => false
  | .rectangle _ => false
  | .line _ => false
  | .space _ => false
  | .unknown _ => true

mutual

/-- Dispatch of `GetXY`.  The `space` receiver is space.go's `Space.GetXY`.
The `circle`, `rectangle` and `line` cases are modelled from the spec: every
shape variant carries a reference position `(X, Y)` that get/set position
operates on (for a `Line`, the start position).  `unknown` is foreign code;
its reported position is unspecified and modelled as `(0, 0)`; no theorem
relies on it. -/
def Shape.GetXY : Shape → ℤ × ℤ
  | .circle c => (c.X, c.Y)
  | .rectangle r => (r.X, r.Y)
  | .line l => (l.X, l.Y)
  | .space s => Space.GetXY s
  | .unknown _ => (0, 0)

/-- Function `Space.GetXY` from space.go (lines 255-262): the position of the first
member, or `(0, 0)` for an empty Space. -/
def Space.GetXY : List Shape → ℤ × ℤ
  | [] => (0, 0)
  | m :: _ => Shape.GetXY m

end

mutual

/-- Dispatch of `Move`.  The `space` receiver is space.go's `Space.Move`.  The
`circle`, `rectangle` and `line` cases are modelled from the spec: moving by
a delta adds it to the shape's position (for a `Line`, translating the whole
segment moves both endpoints).  `unknown` is foreign code, modelled as
unmoved; no theorem relies on it. -/
def Shape.Move : Shape → ℤ → ℤ → Shape
  | .circle c, dx, dy => .circle { c with X := c.X + dx, Y := c.Y + dy }
  | .rectangle r, dx, dy => .rectangle { r with X := r.X + dx, Y := r.Y + dy }
  | .line l, dx, dy =>
      .line { l with X := l.X + dx, Y := l.Y + dy, X2 := l.X2 + dx, Y2 := l.Y2 + dy }
  | .space s, dx, dy => .space (Space.Move s dx dy)
  | .unknown k, _, _ => .unknown k

/-- Function `Space.Move` from space.go (lines 283-288): move every member by the
displacement. -/
def Space.Move : List Shape → ℤ → ℤ → List Shape
  | [], _, _ => []
  | m :: rest, dx, dy => Shape.Move m dx dy :: Space.Move rest dx dy

end

/-- Function `Space.SetXY` from space.go (lines 267-281): for a non-empty Space, read
the first member's position via `GetXY`, then move every member by the
difference between the target and that position. -/
def Space.SetXY (sp : List Shape) (x y : ℤ) : List Shape :=
  match sp with
  | [] => sp
  | _ :: _ =>
      Space.Move sp (x - (Space.GetXY sp).1) (y - (Space.GetXY sp).2)

/-- A shape reports a genuine, movable position exactly when its chain of
first members bottoms out in a concrete `Circle`, `Rectangle` or `Line`: an
empty `Space` reports the constant `(0, 0)`, and a foreign shape is
unspecified. -/
def Shape.HasRoot : Shape → Bool
  | .circle _ => true
  | .rectangle _ => true
  | .line _ => true
  | .space [] => false
  | .space (m :: _) => Shape.HasRoot m
  | .unknown _ => false

/-- Function `Space.Add` from space.go (lines 20-27).  Go shapes are references and
`shape == sp` compares reference identities, so shapes are modelled by
identities (`ℕ`) and a Space's contents by the list of its members'
identities.  Each argument is checked against the receiving Space's own
identity; a hit raises the fatal error (Go: panic), modelled as
`Except.error` carrying the contents as already extended by the arguments
that preceded the offender (those appends have already happened when Go
panics); otherwise the argument is appended and the scan continues. -/
def Space.Add (sp : ℕ) : List ℕ → List ℕ → Except (List ℕ) (List ℕ)
  | [], contents => .ok contents
  | shape :: rest, contents =>
      if shape = sp then .error contents
      else Space.Add sp rest (contents ++ [shape])

/-- Transitive containment between Spaces in a heap `H` mapping each Space
identity to its member identities: `Reaches H a b` holds when `b` is
reachable from `a` through one or more membership steps. -/
inductive Reaches (H : ℕ → List ℕ) : ℕ → ℕ → Prop where
  | direct {a b : ℕ} : b ∈ H a → Reaches H a b
  | step {a b c : ℕ} : b ∈ H a → Reaches H b c → Reaches H a c

/-- Reference predicate for the circle-segment test, following the spec's
words rather than the source: the minimum distance from the segment to the
circle's center is at most the radius, i.e. some point `A + t·(B - A)` of
the segment (`t ∈ [0, 1]`) lies within `Radius` of the center. -/
noncomputable def segmentWithinRadius (c : Circle) (l : Line) : Prop :=
  ∃ t : ℝ, 0 ≤ t ∧ t ≤ 1 ∧
    Real.sqrt (((l.X : ℝ) + t * ((l.X2 : ℝ) - (l.X : ℝ)) - (c.X : ℝ)) ^ 2 +
        ((l.Y : ℝ) + t * ((l.Y2 : ℝ) - (l.Y : ℝ)) - (c.Y : ℝ)) ^ 2) ≤
      (c.Radius : ℝ)

/-! ### Helper lemmas -/

/-- Comparing a `Distance` against a nonnegative integer bound is the
squared-distance comparison over `ℤ`. -/
lemma Distance_le_iff {x y a b r : ℤ} (hr : 0 ≤ r) :
    Distance x y a b ≤ (r : ℝ) ↔ (x - a) ^ 2 + (y - b) ^ 2 ≤ r ^ 2 := by
  rw [Distance, Real.sqrt_le_iff]
  constructor
  · rintro ⟨-, h⟩
    exact_mod_cast h
  · intro h
    exact ⟨by exact_mod_cast hr, by exact_mod_cast h⟩

lemma Distance_comm (x y a b : ℤ) : Distance x y a b = Distance a b x y := by
  rw [Distance, Distance]
  ring_nf

/-- The if-chains computing the closest point coincide with interval
clamping when the rectangle's extent is nonnegative. -/
lemma closestX_eq_clamp (c : Circle) (b : Rectangle) (hw : 0 ≤ b.W) :
    c.closestX b = max b.X (min c.X (b.X + b.W)) := by
  rw [Circle.closestX]
  split_ifs <;> omega

lemma closestY_eq_clamp (c : Circle) (b : Rectangle) (hh : 0 ≤ b.H) :
    c.closestY b = max b.Y (min c.Y (b.Y + b.H)) := by
  rw [Circle.closestY]
  split_ifs <;> omega

/-! ### Claims -/

/-- C2.  Two circles (with the spec's nonnegative radii) collide exactly
when the Euclidean distance between their centers is at most the sum of the
radii — equivalently, when the squared center distance is at most the
squared radius sum; touching (equality) counts as colliding. -/
theorem circle_circle_colliding_iff (a b : Circle)
    (ha : 0 ≤ a.Radius) (hb : 0 ≤ b.Radius) :
    IsColliding (.circle a) (.circle b) ↔
      (a.X - b.X) ^ 2 + (a.Y - b.Y) ^ 2 ≤ (a.Radius + b.Radius) ^ 2 := by
  have h : IsColliding (.circle a) (.circle b) ↔
      Distance a.X a.Y b.X b.Y ≤ ((a.Radius + b.Radius : ℤ) : ℝ) := by
    simp [IsColliding]
  rw [h, Distance_le_iff (by omega)]

theorem circle_circle_colliding_iff_witness :
    IsColliding (.circle ⟨0, 0, 5⟩) (.circle ⟨10, 0, 5⟩) ∧
      ¬ IsColliding (.circle ⟨0, 0, 5⟩) (.circle ⟨11, 0, 5⟩) := by
  constructor
  · exact (circle_circle_colliding_iff ⟨0, 0, 5⟩ ⟨10, 0, 5⟩ (by decide)
      (by decide)).mpr (by decide)
  · intro h
    have h2 := (circle_circle_colliding_iff ⟨0, 0, 5⟩ ⟨11, 0, 5⟩ (by decide)
      (by decide)).mp h
    revert h2
    decide

/-- C3.  A circle (nonnegative radius) and a rectangle (nonnegative extents)
collide exactly when the point obtained by clamping the center into the
rectangle's X and Y intervals is within the radius of the center, and a
center lying inside the rectangle always collides. -/
theorem circle_rectangle_colliding_iff (c : Circle) (b : Rectangle)
    (hw : 0 ≤ b.W) (hh : 0 ≤ b.H) (hr : 0 ≤ c.Radius) :
    (IsColliding (.circle c) (.rectangle b) ↔
      (c.X - max b.X (min c.X (b.X + b.W))) ^ 2 +
        (c.Y - max b.Y (min c.Y (b.Y + b.H))) ^ 2 ≤ c.Radius ^ 2) ∧
    (b.X ≤ c.X → c.X ≤ b.X + b.W → b.Y ≤ c.Y → c.Y ≤ b.Y + b.H →
      IsColliding (.circle c) (.rectangle b)) := by
  have h : IsColliding (.circle c) (.rectangle b) ↔
      Distance c.X c.Y (c.closestX b) (c.closestY b) ≤ (c.Radius : ℝ) := by
    simp [IsColliding]
  have hmain : IsColliding (.circle c) (.rectangle b) ↔
      (c.X - max b.X (min c.X (b.X + b.W))) ^ 2 +
        (c.Y - max b.Y (min c.Y (b.Y + b.H))) ^ 2 ≤ c.Radius ^ 2 := by
    rw [h, Distance_le_iff hr, closestX_eq_clamp c b hw, closestY_eq_clamp c b hh]
  refine ⟨hmain, fun h1 h2 h3 h4 => ?_⟩
  rw [hmain]
  have hx : max b.X (min c.X (b.X + b.W)) = c.X := by omega
  have hy : max b.Y (min c.Y (b.Y + b.H)) = c.Y := by omega
  rw [hx, hy]
  simp
  positivity

theorem circle_rectangle_colliding_iff_witness :
    IsColliding (.circle ⟨5, 5, 1⟩) (.rectangle ⟨0, 0, 10, 10⟩) :=
  (circle_rectangle_colliding_iff ⟨5, 5, 1⟩ ⟨0, 0, 10, 10⟩ (by decide)
    (by decide) (by decide)).2 (by decide) (by decide) (by decide) (by decide)

/-- C5.  The swept test on a circle leaves the circle exactly as it was:
the position mutated by the delta is restored unconditionally, so the pair's
second component (the circle after the call) equals the original circle, and
the first component is the swept-collision verdict used in dispatch. -/
theorem circle_wouldBeColliding_restores_position (c : Circle) (other : Shape)
    (dx dy : ℤ) :
    (Circle.WouldBeColliding c other dx dy).2 = c ∧
      ((Circle.WouldBeColliding c other dx dy).1 ↔
        Shape.WouldBeColliding (.circle c) other dx dy) := by
  constructor
  · cases c
    simp [Circle.WouldBeColliding]
  · rw [Shape.WouldBeColliding]

/-- C7.  A collision test of a circle against a shape outside the
recognized variants takes the type-switch fall-through: the warning channel
fires and the result is false (the dispatch is a total function, so the call
returns rather than aborting). -/
theorem circle_unknown_pairing_warns_and_false (c : Circle) (k : ℕ) :
    Circle.collisionWarning c (.unknown k) = true ∧
      ¬ IsColliding (.circle c) (.unknown k) := by
  refine ⟨rfl, ?_⟩
  simp [IsColliding]

/-- C10.  If a Space's member list is `pre ++ other :: post` with `other`
not among `pre`, and no member of `pre` would collide with `other` under the
delta, then the Space's swept test returns false: the scan stops at `other`
without consulting `post`.  With `pre = []` (other is the first member) the
hypotheses are vacuous and the result is always false. -/
theorem space_wouldBeColliding_stops_at_member (pre post : List Shape)
    (other : Shape) (dx dy : ℤ) (hpre : other ∉ pre)
    (hsafe : ∀ m ∈ pre, ¬ Shape.WouldBeColliding m other dx dy) :
    ¬ Space.WouldBeColliding (pre ++ other :: post) other dx dy := by
  induction pre with
  | nil =>
      intro h
      rw [List.nil_append, Space.WouldBeColliding] at h
      exact h.1 rfl
  | cons m rest ih =>
      intro h
      rw [List.cons_append, Space.WouldBeColliding] at h
      rcases h.2 with hm | hrest
      · exact hsafe m (List.mem_cons_self m rest) hm
      · exact ih (fun hmem => hpre (List.mem_cons_of_mem m hmem))
          (fun m2 hm2 => hsafe m2 (List.mem_cons_of_mem m hm2)) hrest

theorem space_wouldBeColliding_stops_at_member_witness :
    ¬ Space.WouldBeColliding [Shape.circle ⟨0, 0, 1⟩] (Shape.circle ⟨0, 0, 1⟩)
      5 0 :=
  space_wouldBeColliding_stops_at_member [] [] (Shape.circle ⟨0, 0, 1⟩) 5 0
    (by simp) (by simp)

/-- Moving a shape whose root chain ends in a concrete shape shifts its
reported position by exactly the delta. -/
theorem Shape.getXY_move (dx dy : ℤ) :
    ∀ m : Shape, m.HasRoot = true →
      (m.Move dx dy).GetXY = ((m.GetXY).1 + dx, (m.GetXY).2 + dy)
  | .circle c, _ => by simp [Shape.Move, Shape.GetXY]
  | .rectangle r, _ => by simp [Shape.Move, Shape.GetXY]
  | .line l, _ => by simp [Shape.Move, Shape.GetXY]
  | .space [], h => by simp [Shape.HasRoot] at h
  | .space (m :: rest), h => by
      have hm : m.HasRoot = true := by
        rw [Shape.HasRoot] at h
        exact h
      have ih := Shape.getXY_move dx dy m hm
      simp [Shape.Move, Space.Move, Shape.GetXY, Space.GetXY, ih]
  | .unknown _, h => by simp [Shape.HasRoot] at h
termination_by m => sizeOf m
decreasing_by simp_wf; omega

/-- C9 counterexample.  A non-empty Space whose first member is an empty
Space: `SetXY` cannot place the root at the target, because the empty root
reports the constant position `(0, 0)` and moving it is a no-op, so after
`SetXY(1, 0)` the Space still reports `(0, 0)`. -/
theorem space_setXY_empty_root_counterexample :
    Space.GetXY (Space.SetXY [Shape.space []] 1 0) ≠ (1, 0) := by
  simp [Space.SetXY, Space.GetXY, Shape.GetXY, Space.Move, Shape.Move]
  decide

/-- C9 (amended).  For a non-empty Space all of whose members report a
genuine position (their root chains end in a concrete Circle, Rectangle or
Line — in particular no member is an empty composite), `SetXY` moves every
member by the common delta from the root's current position to the target:
afterwards the root reports exactly the target, and each member's position
has shifted by that same delta, preserving relative offsets. -/
theorem space_setXY_moves_all_relative (sp : List Shape) (x y : ℤ)
    (hne : sp ≠ []) (hroot : ∀ m ∈ sp, m.HasRoot = true) :
    Space.SetXY sp x y =
      Space.Move sp (x - (Space.GetXY sp).1) (y - (Space.GetXY sp).2) ∧
    Space.GetXY (Space.SetXY sp x y) = (x, y) ∧
    ∀ m ∈ sp,
      (m.Move (x - (Space.GetXY sp).1) (y - (Space.GetXY sp).2)).GetXY =
        ((m.GetXY).1 + (x - (Space.GetXY sp).1),
          (m.GetXY).2 + (y - (Space.GetXY sp).2)) := by
  match sp, hne with
  | m :: rest, _ =>
    have hsetxy : Space.SetXY (m :: rest) x y =
        Space.Move (m :: rest) (x - (Space.GetXY (m :: rest)).1)
          (y - (Space.GetXY (m :: rest)).2) := by
      rw [Space.SetXY]
    refine ⟨hsetxy, ?_, fun s hs => Shape.getXY_move _ _ s (hroot s hs)⟩
    rw [hsetxy]
    have hm := Shape.getXY_move (x - (Space.GetXY (m :: rest)).1)
      (y - (Space.GetXY (m :: rest)).2) m (hroot m (List.mem_cons_self m rest))
    rw [Space.Move, Space.GetXY, hm]
    rw [Space.GetXY]
    simp only [Prod.mk.injEq]
    omega

theorem space_setXY_moves_all_relative_witness :
    Space.GetXY (Space.SetXY [Shape.circle ⟨3, 4, 1⟩, Shape.circle ⟨5, 6, 2⟩]
      10 20) = (10, 20) :=
  (space_setXY_moves_all_relative
    [Shape.circle ⟨3, 4, 1⟩, Shape.circle ⟨5, 6, 2⟩] 10 20 (by simp)
    (by intro m hm
        simp only [List.mem_cons, List.not_mem_nil, or_false] at hm
        rcases hm with h | h <;> (subst h; rw [Shape.HasRoot]))).2.1

/-- C8 (amended).  `Space.Add` checks each argument against the receiving
Space's own identity only: if none of the arguments is the Space itself, all
of them are appended in order and the call succeeds; if some argument is the
Space itself, the call aborts with the fatal error (the Go panic), without
appending the offending argument. -/
theorem space_add_checks_direct_self_only (sp : ℕ) (shapes contents : List ℕ) :
    (sp ∉ shapes → Space.Add sp shapes contents = .ok (contents ++ shapes)) ∧
    (sp ∈ shapes → ∃ done : List ℕ, Space.Add sp shapes contents = .error done) := by
  induction shapes generalizing contents with
  | nil => simp [Space.Add]
  | cons s rest ih =>
      constructor
      · intro hnot
        rw [Space.Add, if_neg (by intro h; exact hnot (h ▸ List.mem_cons_self s rest))]
        rw [(ih (contents ++ [s])).1 (fun h => hnot (List.mem_cons_of_mem s h))]
        simp
      · intro hmem
        by_cases hs : s = sp
        · exact ⟨contents, by rw [Space.Add, if_pos hs]⟩
        · rcases (ih (contents ++ [s])).2 (by
            rcases List.mem_cons.1 hmem with h | h
            · exact absurd h.symm hs
            · exact h) with ⟨done, hdone⟩
          exact ⟨done, by rw [Space.Add, if_neg hs, hdone]⟩

theorem space_add_checks_direct_self_only_witness :
    Space.Add 7 [1, 2] [] = .ok [1, 2] ∧
      ∃ done : List ℕ, Space.Add 7 [7] [] = .error done := by
  constructor
  · exact (space_add_checks_direct_self_only 7 [1, 2] []).1 (by decide)
  · exact (space_add_checks_direct_self_only 7 [7] []).2 (by decide)

/-- The heap after `Space.Add 0 [1] []` succeeds in the counterexample
below: Space `0` holds member `1`, and Space `1` already held member `0`. -/
def cycleHeap : ℕ → List ℕ := fun n =>
  if n = 0 then [1] else if n = 1 then [0] else []

/-- C8 counterexample.  Adding Space `1` — which already contains Space
`0` — to Space `0` is accepted (`ok`, with `1` appended), even though the
result is a Space that transitively contains itself, refuting the claim
that such an `Add` aborts and does not insert. -/
theorem space_add_transitive_cycle_not_rejected :
    Space.Add 0 [1] [] = .ok [1] ∧ Reaches cycleHeap 0 0 :=
  ⟨rfl, .step (a := 0) (b := 1) (by simp [cycleHeap])
    (.direct (by simp [cycleHeap]))⟩

/-- C6 counterexample.  `s1` is a Space holding two overlapping circles and
`s2` a Space holding only `s1`.  Then `s1.IsColliding(s2)` is true (the scan
of `s1` tests its circles against `s2`, reaching the circle-circle overlap),
but `s2.IsColliding(s1)` is false: `s2`'s only member is `s1` itself, which
the identity check skips.  Both directions are defined rules (a Space tests
against any shape), so symmetry fails for a defined pairing. -/
theorem isColliding_space_space_asymmetric :
    IsColliding
      (Shape.space [Shape.circle ⟨0, 0, 1⟩, Shape.circle ⟨1, 0, 1⟩])
      (Shape.space [Shape.space [Shape.circle ⟨0, 0, 1⟩, Shape.circle ⟨1, 0, 1⟩]]) ∧
    ¬ IsColliding
      (Shape.space [Shape.space [Shape.circle ⟨0, 0, 1⟩, Shape.circle ⟨1, 0, 1⟩]])
      (Shape.space [Shape.circle ⟨0, 0, 1⟩, Shape.circle ⟨1, 0, 1⟩]) := by
  have hdist : Distance 0 0 1 0 ≤ ((1 + 1 : ℤ) : ℝ) :=
    (Distance_le_iff (by decide)).mpr (by decide)
  constructor
  · rw [IsColliding, Space.IsColliding]
    refine Or.inl ⟨by simp, ?_⟩
    rw [IsColliding, Space.IsColliding]
    refine Or.inl ⟨by simp, ?_⟩
    rw [IsColliding, Space.IsColliding, Space.IsColliding]
    refine Or.inr (Or.inl ⟨by simp, ?_⟩)
    rw [IsColliding]
    exact hdist
  · intro h
    rw [IsColliding, Space.IsColliding, Space.IsColliding] at h
    rcases h with ⟨hne, -⟩ | h
    · exact hne rfl
    · exact h

/-- C6 (amended).  For supported shapes (no foreign implementor) at most
one of which is a Space, `IsColliding` is symmetric; this covers in
particular Circle vs Circle and Circle vs Space in both orders.  (For
Space vs Space the member-identity skip can break symmetry, per the
counterexample.) -/
theorem isColliding_symm_of_not_both_space (A B : Shape)
    (hA : ∀ k, A ≠ .unknown k) (hB : ∀ k, B ≠ .unknown k)
    (hS : (∀ s, A ≠ .space s) ∨ (∀ s, B ≠ .space s)) :
    IsColliding A B ↔ IsColliding B A := by
  cases A with
  | unknown k => exact absurd rfl (hA k)
  | circle a =>
    cases B with
    | circle b =>
      rw [IsColliding, IsColliding, Distance_comm]
      rw [show a.Radius + b.Radius = b.Radius + a.Radius from add_comm _ _]
    | rectangle b => rw [IsColliding, IsColliding]
    | line b => rw [IsColliding, IsColliding]
    | space s => rw [IsColliding, IsColliding]
    | unknown k => exact absurd rfl (hB k)
  | rectangle a =>
    cases B with
    | circle b => rw [IsColliding, IsColliding]
    | rectangle b =>
      rw [IsColliding, IsColliding]
      constructor <;> (rintro ⟨h1, h2, h3, h4⟩; exact ⟨h2, h1, h4, h3⟩)
    | line b => rw [IsColliding, IsColliding]
    | space s => rw [IsColliding, IsColliding]
    | unknown k => exact absurd rfl (hB k)
  | line a =>
    cases B with
    | circle b => rw [IsColliding, IsColliding]
    | rectangle b => rw [IsColliding, IsColliding]
    | line b => rw [IsColliding, IsColliding]
    | space s => rw [IsColliding, IsColliding]
    | unknown k => exact absurd rfl (hB k)
  | space s =>
    cases B with
    | circle b => rw [IsColliding, IsColliding]
    | rectangle b => rw [IsColliding, IsColliding]
    | line b => rw [IsColliding, IsColliding]
    | space s2 =>
      rcases hS with h | h
      · exact absurd rfl (h s)
      · exact absurd rfl (h s2)
    | unknown k => exact absurd rfl (hB k)

theorem isColliding_symm_witness :
    IsColliding (Shape.circle ⟨0, 0, 2⟩) (Shape.rectangle ⟨1, 1, 3, 3⟩) ↔
      IsColliding (Shape.rectangle ⟨1, 1, 3, 3⟩) (Shape.circle ⟨0, 0, 2⟩) :=
  isColliding_symm_of_not_both_space _ _ (by intro k h; cases h)
    (by intro k h; cases h) (Or.inl (by intro s h; cases h))

open Classical in
/-- Unfolding of `Circle.isCollidingWithLine` with the `let`-bound
quantities named by hypotheses. -/
lemma isCollidingWithLine_cases (c : Circle) (l : Line) (AC CB BA r : ℝ)
    (hAC : AC = Distance c.X c.Y l.X l.Y)
    (hCB : CB = Distance c.X c.Y l.X2 l.Y2)
    (hBA : BA = l.GetLength) (hr : r = (c.Radius : ℝ)) :
    Circle.isCollidingWithLine c l ↔
      ((AC ≤ r ∨ CB ≤ r) ∨
        (2 * Real.sqrt (((AC + CB + BA) / 2) * (((AC + CB + BA) / 2) - AC) *
            (((AC + CB + BA) / 2) - CB) * (((AC + CB + BA) / 2) - BA)) / BA ≤ r ∧
          BA ≥ Real.sqrt ((if AC < CB then CB else AC) * (if AC < CB then CB else AC) +
            r * r - 2 * (if AC < CB then CB else AC) * r *
            ((AC * AC + CB * CB - BA * BA) / (2 * AC * CB))))) := by
  subst hAC hCB hBA hr
  exact Iff.rfl

/-- C4 counterexample support: the control-flow condition under which
circle.go's `isCollidingWithLine` evaluates the altitude expression
`2*math.Sqrt(...)/BA` — the endpoint guard did not return. -/
noncomputable def Circle.lineTestReachesAltitude (c : Circle) (l : Line) : Prop :=
  ¬(Distance c.X c.Y l.X l.Y ≤ (c.Radius : ℝ) ∨
    Distance c.X c.Y l.X2 l.Y2 ≤ (c.Radius : ℝ))

/-- C4 counterexample.  For the circle at (0,0) with radius 1 and the
zero-length segment at (5,5), the endpoint guard does not return (the point
is outside the circle), so the source evaluates `2*math.Sqrt(...)/BA` with
`BA = GetLength = 0`: a division by zero (`0.0/0.0`, NaN in Go's float64),
refuting the claim that zero-length segments are handled by an explicit
fallback branch with no division by zero.  (The final result is still
`false`, which is the correct point-semantics answer; see the amended
theorem.) -/
theorem degenerate_line_divides_by_zero :
    Circle.lineTestReachesAltitude ⟨0, 0, 1⟩ ⟨5, 5, 5, 5⟩ ∧
      Line.GetLength ⟨5, 5, 5, 5⟩ = 0 := by
  constructor
  · rw [Circle.lineTestReachesAltitude]
    rintro (h | h) <;>
      · have h2 := (Distance_le_iff (by decide)).mp h
        revert h2
        decide
  · rw [Line.GetLength, Distance]
    norm_num

/-- C4 (amended).  A zero-length segment is decided as a point-in-circle
test in its *result*: colliding exactly when the endpoint is within the
radius.  When the endpoint is inside, the explicit endpoint guard returns
true; when it is outside, there is no explicit zero-length branch — the
source divides by the zero segment length (see the counterexample; in the
`ℝ` model the division yields 0 and the `newBA` comparison fails, in Go the
NaN comparisons fail) and the fall-through returns the correct `false`. -/
theorem degenerate_line_point_test (c : Circle) (l : Line)
    (hx : l.X = l.X2) (hy : l.Y = l.Y2) (hr : 0 ≤ c.Radius) :
    IsColliding (.circle c) (.line l) ↔
      Distance c.X c.Y l.X l.Y ≤ (c.Radius : ℝ) := by
  have hunfold : IsColliding (.circle c) (.line l) ↔
      Circle.isCollidingWithLine c l := by
    simp [IsColliding]
  have hCBAC : Distance c.X c.Y l.X2 l.Y2 = Distance c.X c.Y l.X l.Y := by
    rw [← hx, ← hy]
  have hBA0 : l.GetLength = 0 := by
    rw [Line.GetLength, ← hx, ← hy, Distance]
    norm_num
  rw [hunfold, isCollidingWithLine_cases c l _ _ _ _ rfl rfl rfl rfl, hCBAC, hBA0]
  set AC := Distance c.X c.Y l.X l.Y with hACdef
  set r : ℝ := (c.Radius : ℝ) with hrdef
  have hr0 : (0 : ℝ) ≤ r := by rw [hrdef]; exact_mod_cast hr
  constructor
  · rintro ((h | h) | ⟨-, hB⟩)
    · exact h
    · exact h
    · by_cases hACle : AC ≤ r
      · exact hACle
      exfalso
      push_neg at hACle
      have hACpos : 0 < AC := lt_of_le_of_lt hr0 hACle
      rw [if_neg (lt_irrefl AC)] at hB
      have hcos : (AC * AC + AC * AC - 0 * 0) / (2 * AC * AC) = 1 := by
        field_simp
        ring
      have hinner : AC * AC + r * r - 2 * AC * r *
          ((AC * AC + AC * AC - 0 * 0) / (2 * AC * AC)) = (AC - r) ^ 2 := by
        rw [hcos]
        ring
      rw [hinner, Real.sqrt_sq_eq_abs] at hB
      have habs : |AC - r| = 0 := le_antisymm hB (abs_nonneg _)
      have : AC - r = 0 := abs_eq_zero.mp habs
      linarith
  · intro h
    exact Or.inl (Or.inl h)

theorem degenerate_line_point_test_witness :
    IsColliding (.circle ⟨0, 0, 2⟩) (.line ⟨1, 1, 1, 1⟩) := by
  refine (degenerate_line_point_test ⟨0, 0, 2⟩ ⟨1, 1, 1, 1⟩ rfl rfl
    (by decide)).mpr ?_
  exact (Distance_le_iff (by decide)).mpr (by decide)

/-! ### The circle-segment equivalence (C1)

Throughout, for a circle center C and segment endpoints A, B, write `A2`,
`B2` for the squared distances from C to A and to B, `D2` for the squared
segment length, `ip` for the inner product of the vectors C→A and C→B, and
`cr` for their cross product.  These satisfy `D2 = A2 + B2 - 2·ip` and the
Lagrange identity `A2·B2 - ip² = cr²`. -/

/-- Heron's product under the square root of the altitude computation
equals the square of half the cross product. -/
lemma heron_product_eq (u v w A2 B2 D2 ip cr : ℝ)
    (hu2 : u ^ 2 = A2) (hv2 : v ^ 2 = B2) (hw2 : w ^ 2 = D2)
    (hD : D2 = A2 + B2 - 2 * ip) (hL : A2 * B2 - ip ^ 2 = cr ^ 2) :
    ((u + v + w) / 2) * (((u + v + w) / 2) - u) * (((u + v + w) / 2) - v) *
      (((u + v + w) / 2) - w) = (cr / 2) ^ 2 := by
  have h1 : ((u + v + w) / 2) * (((u + v + w) / 2) - u) * (((u + v + w) / 2) - v) *
      (((u + v + w) / 2) - w) =
      (4 * u ^ 2 * v ^ 2 - (u ^ 2 + v ^ 2 - w ^ 2) ^ 2) / 16 := by ring
  rw [h1, hu2, hv2, hw2, hD]
  linear_combination hL / 4

/-- The law-of-cosines comparison of the source (`BA ≥ newBA`, squared) is
equivalent to `2·ip ≤ A2 + r·u`, where `u` is the shorter center-to-endpoint
distance (the leg NOT chosen as `primaryLine`). -/
lemma primary_leg_iff (A2 B2 D2 ip r u v w : ℝ)
    (hu2 : u ^ 2 = A2) (hv2 : v ^ 2 = B2) (hw2 : w ^ 2 = D2)
    (hu0 : 0 < u) (hv0 : 0 < v) (hru : r < u)
    (hD : D2 = A2 + B2 - 2 * ip) :
    v * v + r * r - 2 * v * r * ((u * u + v * v - w * w) / (2 * u * v)) ≤ w ^ 2 ↔
      2 * ip ≤ A2 + r * u := by
  have huu : u * u = A2 := by rw [← hu2]; ring
  have hvv : v * v = B2 := by rw [← hv2]; ring
  have hww : w * w = D2 := by rw [← hw2]; ring
  have hnum : u * u + v * v - w * w = 2 * ip := by rw [huu, hvv, hww, hD]; ring
  rw [hnum, hvv, hw2]
  have hT : 2 * v * r * (2 * ip / (2 * u * v)) = 2 * r * ip / u := by
    field_simp
    ring
  rw [hT, sub_le_comm, le_div_iff₀ hu0, hD, ← huu]
  have hpos : 0 < u - r := by linarith
  constructor
  · intro h
    by_contra hcon
    push_neg at hcon
    nlinarith [h, mul_lt_mul_of_pos_right hcon hpos]
  · intro h
    nlinarith [mul_le_mul_of_nonneg_right h hpos.le]

/-- Core quadratic analysis: given both endpoints strictly outside the
circle, the pair of polynomial conditions extracted from the source's
altitude and law-of-cosines tests holds exactly when some point of the
segment is within the radius.  `u ≤ v` fixes which endpoint is nearer. -/
lemma segment_reach_core (A2 B2 D2 ip cr r u v : ℝ)
    (hu2 : u ^ 2 = A2) (hv2 : v ^ 2 = B2) (hu0 : 0 ≤ u) (hv0 : 0 ≤ v)
    (hD : D2 = A2 + B2 - 2 * ip) (hL : A2 * B2 - ip ^ 2 = cr ^ 2)
    (hD2 : 0 < D2) (hr : 0 ≤ r) (hru : r < u) (_hrv : r < v) (huv : u ≤ v) :
    (cr ^ 2 ≤ r ^ 2 * D2 ∧ 2 * ip ≤ A2 + r * u) ↔
      ∃ t : ℝ, 0 ≤ t ∧ t ≤ 1 ∧ A2 + 2 * t * (ip - A2) + t ^ 2 * D2 ≤ r ^ 2 := by
  have hA2r : r ^ 2 < A2 := by nlinarith
  have hB2r : r ^ 2 < B2 := by nlinarith
  have hA2B2 : A2 ≤ B2 := by nlinarith
  have hkey : A2 * D2 - (A2 - ip) ^ 2 = cr ^ 2 := by
    rw [hD]
    linear_combination hL
  constructor
  · rintro ⟨hcr, hip⟩
    have hipA2 : ip < A2 := by nlinarith
    refine ⟨(A2 - ip) / D2, div_nonneg (by linarith) hD2.le, ?_, ?_⟩
    · rw [div_le_one hD2]
      linarith [hipA2, hA2B2, hD.symm.le]
    · have hQt : A2 + 2 * ((A2 - ip) / D2) * (ip - A2) +
          ((A2 - ip) / D2) ^ 2 * D2 = cr ^ 2 / D2 := by
        rw [← hkey]
        field_simp
        ring
      rw [hQt, div_le_iff₀ hD2]
      linarith [hcr]
  · rintro ⟨t, ht0, ht1, hQ⟩
    have hipA : ip ≤ A2 := by
      by_contra hcon
      push_neg at hcon
      nlinarith [hQ, hA2r, mul_nonneg ht0 (sub_pos.mpr hcon).le,
        mul_nonneg (mul_nonneg ht0 ht0) hD2.le]
    have hipB : ip ≤ B2 := by
      by_contra hcon
      push_neg at hcon
      nlinarith [hQ, hB2r, hD,
        mul_nonneg (sub_nonneg.mpr ht1) (sub_pos.mpr hcon).le,
        mul_nonneg (mul_nonneg (sub_nonneg.mpr ht1) (sub_nonneg.mpr ht1)) hD2.le]
    have hcr : cr ^ 2 ≤ r ^ 2 * D2 := by
      nlinarith [sq_nonneg (t * D2 - (A2 - ip)), hkey,
        mul_le_mul_of_nonneg_left hQ hD2.le]
    refine ⟨hcr, ?_⟩
    have hipD : ip * D2 ≤ cr ^ 2 := by
      nlinarith [mul_nonneg (sub_nonneg.mpr hipA) (sub_nonneg.mpr hipB), hL, hD]
    have hipr : ip ≤ r ^ 2 := by
      by_contra hcon
      push_neg at hcon
      linarith [hipD, hcr, mul_lt_mul_of_pos_right hcon hD2]
    linarith [hipr, hA2r, mul_le_mul_of_nonneg_left hru.le hr]

/-- Reparametrizing the segment from the other endpoint (`t ↦ 1 - t`). -/
lemma segment_reach_swap (A2 B2 D2 ip r : ℝ) (hD : D2 = A2 + B2 - 2 * ip) :
    (∃ t : ℝ, 0 ≤ t ∧ t ≤ 1 ∧ B2 + 2 * t * (ip - B2) + t ^ 2 * D2 ≤ r ^ 2) ↔
      ∃ t : ℝ, 0 ≤ t ∧ t ≤ 1 ∧ A2 + 2 * t * (ip - A2) + t ^ 2 * D2 ≤ r ^ 2 := by
  constructor
  · rintro ⟨t, ht0, ht1, hQ⟩
    refine ⟨1 - t, by linarith, by linarith, ?_⟩
    have heq : A2 + 2 * (1 - t) * (ip - A2) + (1 - t) ^ 2 * D2 =
        B2 + 2 * t * (ip - B2) + t ^ 2 * D2 := by
      rw [hD]
      ring
    rw [heq]
    exact hQ
  · rintro ⟨t, ht0, ht1, hQ⟩
    refine ⟨1 - t, by linarith, by linarith, ?_⟩
    have heq : B2 + 2 * (1 - t) * (ip - B2) + (1 - t) ^ 2 * D2 =
        A2 + 2 * t * (ip - A2) + t ^ 2 * D2 := by
      rw [hD]
      ring
    rw [heq]
    exact hQ

open Classical in
/-- The whole body of `isCollidingWithLine`, over exact reals, is
equivalent to reachability of the circle by the segment. -/
lemma circle_line_core (A2 B2 D2 ip cr r : ℝ)
    (hD : D2 = A2 + B2 - 2 * ip) (hL : A2 * B2 - ip ^ 2 = cr ^ 2)
    (hD2 : 0 < D2) (hr : 0 ≤ r) (hA2 : 0 ≤ A2) (hB2 : 0 ≤ B2) :
    ((Real.sqrt A2 ≤ r ∨ Real.sqrt B2 ≤ r) ∨
      (2 * Real.sqrt
          (((Real.sqrt A2 + Real.sqrt B2 + Real.sqrt D2) / 2) *
            (((Real.sqrt A2 + Real.sqrt B2 + Real.sqrt D2) / 2) - Real.sqrt A2) *
            (((Real.sqrt A2 + Real.sqrt B2 + Real.sqrt D2) / 2) - Real.sqrt B2) *
            (((Real.sqrt A2 + Real.sqrt B2 + Real.sqrt D2) / 2) - Real.sqrt D2)) /
          Real.sqrt D2 ≤ r ∧
        Real.sqrt D2 ≥ Real.sqrt
          ((if Real.sqrt A2 < Real.sqrt B2 then Real.sqrt B2 else Real.sqrt A2) *
              (if Real.sqrt A2 < Real.sqrt B2 then Real.sqrt B2 else Real.sqrt A2) +
            r * r -
            2 * (if Real.sqrt A2 < Real.sqrt B2 then Real.sqrt B2 else Real.sqrt A2) *
              r *
              ((Real.sqrt A2 * Real.sqrt A2 + Real.sqrt B2 * Real.sqrt B2 -
                  Real.sqrt D2 * Real.sqrt D2) /
                (2 * Real.sqrt A2 * Real.sqrt B2))))) ↔
      ∃ t : ℝ, 0 ≤ t ∧ t ≤ 1 ∧ A2 + 2 * t * (ip - A2) + t ^ 2 * D2 ≤ r ^ 2 := by
  set u := Real.sqrt A2 with hu
  set v := Real.sqrt B2 with hv
  set w := Real.sqrt D2 with hw
  have hu2 : u ^ 2 = A2 := Real.sq_sqrt hA2
  have hv2 : v ^ 2 = B2 := Real.sq_sqrt hB2
  have hw2 : w ^ 2 = D2 := Real.sq_sqrt hD2.le
  have hu0 : 0 ≤ u := Real.sqrt_nonneg _
  have hv0 : 0 ≤ v := Real.sqrt_nonneg _
  have hw0 : 0 < w := Real.sqrt_pos.mpr hD2
  by_cases huler : u ≤ r
  · constructor
    · intro _
      exact ⟨0, le_refl 0, zero_le_one, by nlinarith⟩
    · intro _
      exact Or.inl (Or.inl huler)
  by_cases hvler : v ≤ r
  · constructor
    · intro _
      refine ⟨1, zero_le_one, le_refl 1, ?_⟩
      nlinarith
    · intro _
      exact Or.inl (Or.inr hvler)
  push_neg at huler hvler
  have hupos : 0 < u := lt_of_le_of_lt hr huler
  have hvpos : 0 < v := lt_of_le_of_lt hr hvler
  rw [or_iff_right (by push_neg; exact ⟨huler, hvler⟩ : ¬(u ≤ r ∨ v ≤ r))]
  rw [heron_product_eq u v w A2 B2 D2 ip cr hu2 hv2 hw2 hD hL,
    Real.sqrt_sq_eq_abs]
  have habs2 : 2 * |cr / 2| / w = |cr| / w := by
    rw [abs_div, abs_two]
    ring
  rw [habs2]
  have hM1 : |cr| / w ≤ r ↔ cr ^ 2 ≤ r ^ 2 * D2 := by
    rw [div_le_iff₀ hw0]
    constructor
    · intro h
      have h2 := mul_le_mul h h (abs_nonneg cr) (mul_nonneg hr hw0.le)
      nlinarith [sq_abs cr, hw2]
    · intro h
      have h1 : Real.sqrt (cr ^ 2) ≤ Real.sqrt (r ^ 2 * D2) := Real.sqrt_le_sqrt h
      rw [Real.sqrt_sq_eq_abs, Real.sqrt_mul (sq_nonneg r), Real.sqrt_sq hr,
        ← hw] at h1
      exact h1
  rw [hM1]
  by_cases huv : u < v
  · rw [if_pos huv]
    have hM2 : w ≥ Real.sqrt (v * v + r * r - 2 * v * r *
        ((u * u + v * v - w * w) / (2 * u * v))) ↔ 2 * ip ≤ A2 + r * u := by
      rw [ge_iff_le, Real.sqrt_le_iff]
      constructor
      · rintro ⟨-, h⟩
        exact (primary_leg_iff A2 B2 D2 ip r u v w hu2 hv2 hw2 hupos hvpos
          huler hD).mp h
      · intro h
        exact ⟨hw0.le, (primary_leg_iff A2 B2 D2 ip r u v w hu2 hv2 hw2 hupos
          hvpos huler hD).mpr h⟩
    rw [hM2]
    exact segment_reach_core A2 B2 D2 ip cr r u v hu2 hv2 hu0 hv0 hD hL hD2 hr
      huler hvler huv.le
  · rw [if_neg huv]
    have hcomm : (u * u + v * v - w * w) / (2 * u * v) =
        (v * v + u * u - w * w) / (2 * v * u) := by ring_nf
    rw [hcomm]
    have hM2 : w ≥ Real.sqrt (u * u + r * r - 2 * u * r *
        ((v * v + u * u - w * w) / (2 * v * u))) ↔ 2 * ip ≤ B2 + r * v := by
      rw [ge_iff_le, Real.sqrt_le_iff]
      constructor
      · rintro ⟨-, h⟩
        exact (primary_leg_iff B2 A2 D2 ip r v u w hv2 hu2 hw2 hvpos hupos
          hvler (by rw [hD]; ring)).mp h
      · intro h
        exact ⟨hw0.le, (primary_leg_iff B2 A2 D2 ip r v u w hv2 hu2 hw2 hvpos
          hupos hvler (by rw [hD]; ring)).mpr h⟩
    rw [hM2, ← segment_reach_swap A2 B2 D2 ip r hD]
    exact segment_reach_core B2 A2 D2 ip cr r v u hv2 hu2 hv0 hu0
      (by rw [hD]; ring) (by linear_combination hL) hD2 hr hvler huler
      (not_lt.mp huv)

/-- C1.  For a circle with nonnegative radius and a segment of positive
length, the triangle-based test of circle.go (`isCollidingWithLine`, via
`IsColliding` dispatch) returns true exactly when the minimum distance from
the segment to the circle's center is at most the radius — the direct
point-to-segment reference test `segmentWithinRadius`. -/
theorem circle_line_triangle_test_correct (c : Circle) (l : Line)
    (hr : 0 ≤ c.Radius) (hlen : 0 < l.GetLength) :
    IsColliding (.circle c) (.line l) ↔ segmentWithinRadius c l := by
  set ax : ℝ := (l.X : ℝ) - (c.X : ℝ) with hax
  set ay : ℝ := (l.Y : ℝ) - (c.Y : ℝ) with hay
  set bx : ℝ := (l.X2 : ℝ) - (c.X : ℝ) with hbx
  set bY : ℝ := (l.Y2 : ℝ) - (c.Y : ℝ) with hbY
  set A2 : ℝ := ax ^ 2 + ay ^ 2 with hA2
  set B2 : ℝ := bx ^ 2 + bY ^ 2 with hB2
  set D2 : ℝ := (bx - ax) ^ 2 + (bY - ay) ^ 2 with hD2def
  set ip : ℝ := ax * bx + ay * bY with hip
  set cr : ℝ := ax * bY - ay * bx with hcr
  set r : ℝ := (c.Radius : ℝ) with hrdef
  have hD : D2 = A2 + B2 - 2 * ip := by rw [hD2def, hA2, hB2, hip]; ring
  have hL : A2 * B2 - ip ^ 2 = cr ^ 2 := by rw [hA2, hB2, hip, hcr]; ring
  have hACd : Distance c.X c.Y l.X l.Y = Real.sqrt A2 := by
    rw [Distance]
    congr 1
    rw [hA2, hax, hay]
    push_cast
    ring
  have hCBd : Distance c.X c.Y l.X2 l.Y2 = Real.sqrt B2 := by
    rw [Distance]
    congr 1
    rw [hB2, hbx, hbY]
    push_cast
    ring
  have hBAd : l.GetLength = Real.sqrt D2 := by
    rw [Line.GetLength, Distance]
    congr 1
    rw [hD2def, hax, hay, hbx, hbY]
    push_cast
    ring
  have hD2pos : 0 < D2 := by
    rw [hBAd] at hlen
    exact Real.sqrt_pos.mp hlen
  have hA2n : 0 ≤ A2 := by positivity
  have hB2n : 0 ≤ B2 := by positivity
  have hrn : (0 : ℝ) ≤ r := by rw [hrdef]; exact_mod_cast hr
  have hseg : segmentWithinRadius c l ↔
      ∃ t : ℝ, 0 ≤ t ∧ t ≤ 1 ∧ A2 + 2 * t * (ip - A2) + t ^ 2 * D2 ≤ r ^ 2 := by
    rw [segmentWithinRadius]
    apply exists_congr
    intro t
    apply and_congr_right
    intro _
    apply and_congr_right
    intro _
    rw [show ((l.X : ℝ) + t * ((l.X2 : ℝ) - (l.X : ℝ)) - (c.X : ℝ)) ^ 2 +
        ((l.Y : ℝ) + t * ((l.Y2 : ℝ) - (l.Y : ℝ)) - (c.Y : ℝ)) ^ 2 =
        A2 + 2 * t * (ip - A2) + t ^ 2 * D2 from by
      rw [hA2, hip, hD2def, hax, hay, hbx, hbY]
      ring]
    rw [← hrdef, Real.sqrt_le_iff]
    constructor
    · rintro ⟨-, h⟩
      exact h
    · intro h
      exact ⟨hrn, h⟩
  have hunfold : IsColliding (.circle c) (.line l) ↔
      Circle.isCollidingWithLine c l := by
    simp [IsColliding]
  rw [hunfold, isCollidingWithLine_cases c l _ _ _ r rfl rfl rfl hrdef,
    hACd, hCBd, hBAd, hseg]
  exact circle_line_core A2 B2 D2 ip cr r hD hL hD2pos hrn hA2n hB2n

theorem circle_line_triangle_test_correct_witness :
    IsColliding (.circle ⟨0, 0, 2⟩) (.line ⟨1, -5, 1, 5⟩) ∧
      ¬ IsColliding (.circle ⟨0, 0, 2⟩) (.line ⟨5, -5, 5, 5⟩) := by
  have hlen1 : 0 < Line.GetLength ⟨1, -5, 1, 5⟩ := by
    rw [Line.GetLength, Distance]
    apply Real.sqrt_pos.mpr
    norm_num
  have hlen2 : 0 < Line.GetLength ⟨5, -5, 5, 5⟩ := by
    rw [Line.GetLength, Distance]
    apply Real.sqrt_pos.mpr
    norm_num
  constructor
  · refine (circle_line_triangle_test_correct ⟨0, 0, 2⟩ ⟨1, -5, 1, 5⟩
      (by decide) hlen1).mpr ?_
    refine ⟨1 / 2, by norm_num, by norm_num, ?_⟩
    show Real.sqrt ((((1 : ℤ) : ℝ) + 1 / 2 * (((1 : ℤ) : ℝ) - ((1 : ℤ) : ℝ)) -
        ((0 : ℤ) : ℝ)) ^ 2 + ((((-5 : ℤ)) : ℝ) + 1 / 2 * (((5 : ℤ) : ℝ) -
        (((-5 : ℤ)) : ℝ)) - ((0 : ℤ) : ℝ)) ^ 2) ≤ ((2 : ℤ) : ℝ)
    push_cast
    norm_num
  · intro h
    obtain ⟨t, ht0, ht1, hle⟩ := (circle_line_triangle_test_correct ⟨0, 0, 2⟩
      ⟨5, -5, 5, 5⟩ (by decide) hlen2).mp h
    rw [show (((5 : ℤ) : ℝ) + t * (((5 : ℤ) : ℝ) - ((5 : ℤ) : ℝ)) -
        ((0 : ℤ) : ℝ)) ^ 2 + ((((-5 : ℤ)) : ℝ) + t * (((5 : ℤ) : ℝ) -
        (((-5 : ℤ)) : ℝ)) - ((0 : ℤ) : ℝ)) ^ 2 =
        25 + (-5 + t * 10) ^ 2 from by push_cast; ring] at hle
    have h25 : (5 : ℝ) ≤ Real.sqrt (25 + (-5 + t * 10) ^ 2) :=
      (Real.le_sqrt (by norm_num) (by positivity)).mpr
        (by nlinarith [sq_nonneg (-5 + t * 10)])
    have hcast : ((2 : ℤ) : ℝ) = 2 := by norm_num
    rw [hcast] at hle
    linarith

end Resolv
